import Mathlib

/-!
Verification development for the ShareUnixIA backend (src/back.js), a single
Express endpoint that relays chat messages to the Together AI completion API
as a Server-Sent-Events stream while keeping per-session history in memory.

The JavaScript source is shallowly embedded: strings are Lean strings
(lists of Unicode scalar values), the two module-level mutable objects
(chatMemory and sessionsInProcess) become an explicit ServerState threaded
through the request handler, and the response object is modelled as the list
of observable actions performed on it. The upstream Together AI stream is an
oracle supplied with each request: it either yields a list of chunks and ends
normally, yields some chunks and then throws, or throws at creation time.
-/

set_option maxRecDepth 10000

namespace ShareUnix

/-- A conversation turn as stored in chatMemory: a role tag and content,
mirroring the objects pushed at lines 138-139 of back.js. The same shape is
used for the role-tagged messages sent to the completion API. -/
structure Turn where
  role : String
  content : String
deriving DecidableEq

/-- One choice's delta inside an upstream stream chunk (chunk.choices[0].delta).
The content field is absent or a string; in JS an empty string is falsy and is
skipped by the guard at line 126 exactly like an absent one. -/
structure Delta where
  content : Option String
deriving DecidableEq

/-- One element of chunk.choices. The delta field may be absent. -/
structure Choice where
  delta : Option Delta
deriving DecidableEq

/-- An upstream stream chunk. An absent choices array and an empty one are
observationally identical under the guard at line 126 (both skip the chunk),
so choices is modelled as a plain list. -/
structure Chunk where
  choices : List Choice
deriving DecidableEq

/-- Outcome of the upstream completion call, used as an oracle: create() may
throw, or the stream may yield some chunks and then throw mid-iteration, or it
may yield chunks and end normally. -/
inductive UpstreamOutcome where
  | ok (chunks : List Chunk)
  | streamFail (chunks : List Chunk) (emsg : String)
  | createFail (emsg : String)

/-- The process-wide mutable state of back.js: chatMemory (an object mapping
session ids to turn arrays, modelled as an association list) and
sessionsInProcess (a Set of session ids, modelled as a list). -/
structure ServerState where
  chatMemory : List (String × List Turn)
  sessionsInProcess : List String
deriving DecidableEq

/-- An inbound POST body (message and sessionId are each optionally present),
together with the upstream oracle for this request. Non-string JSON values for
the fields are not modelled: message is absent or a string. -/
structure Request where
  message : Option String
  sessionId : Option String
  upstream : UpstreamOutcome

/-- An observable action performed on the Express response object:
writeHead(status, headers), res.status(s).json with a single error object,
res.write(data), or res.end(). -/
inductive ResponseEvent where
  | writeHead (status : Nat) (headers : List (String × String))
  | jsonError (status : Nat) (errorMessage : String)
  | write (data : String)
  | endRes
deriving DecidableEq

/-- The observable result of one request: the final server state, the ordered
list of response actions, and the completion request sent upstream (if the
handler reached the dispatch point). -/
structure UpstreamCall where
  model : String
  messages : List Turn
  stream : Bool
deriving DecidableEq

structure HandlerResult where
  state : ServerState
  events : List ResponseEvent
  upstreamRequest : Option UpstreamCall
deriving DecidableEq

/-! ## Message sanitizer (cleanUserMessage, lines 36-44) -/

/-- Case folding used by the case-insensitive label regex: ASCII letters fold
to lower case, and the one non-ASCII letter appearing in the patterns folds
likewise (Ó to ó, matching the canonicalisation JS applies under the i flag).
No other character is identified with these by the JS regex engine. -/
def foldC (c : Char) : Char :=
  if 'A' ≤ c ∧ c ≤ 'Z' then Char.ofNat (c.toNat + 32)
  else if c = 'Ó' then 'ó'
  else c

/-- Case-insensitively drop pat from the front of text, returning the rest. -/
def dropPrefixCI : List Char → List Char → Option (List Char)
  | [], text => some text
  | _ :: _, [] => none
  | p :: ps, t :: ts => if foldC p = foldC t then dropPrefixCI ps ts else none

/-- The six literal alternatives of the role-marker regex at line 39, in
source order. -/
def labelPatterns : List (List Char) :=
  [("Usuario:").data, ("Asistente:").data, ("Assistant:").data,
   ("Pregunta del Usuario:").data, ("Respuesta:").data, ("Interacción:").data]

/-- First pattern of ps that matches at the head of text (regex alternation
order), returning the remaining text after the match. -/
def matchFirst : List (List Char) → List Char → Option (List Char)
  | [], _ => none
  | p :: ps, text =>
    match dropPrefixCI p text with
    | some rest => some rest
    | none => matchFirst ps text

/-- Does any role-marker label match at the head of text, and what follows it. -/
def matchAnyLabel (text : List Char) : Option (List Char) :=
  matchFirst labelPatterns text

/-- Global replace of the label regex by the empty string: scan left to right,
and at each match (leftmost, first alternative) continue after the matched
text, as JS String.replace with the g flag does (matched output is not
rescanned). Fuel-indexed so that it is structurally recursive; every step
consumes at least one character of text, so fuel equal to the input length
suffices. -/
def stripLabelsFuel : Nat → List Char → List Char
  | 0, _ => []
  | _ + 1, [] => []
  | fuel + 1, c :: cs =>
    match matchAnyLabel (c :: cs) with
    | some rest => stripLabelsFuel fuel rest
    | none => c :: stripLabelsFuel fuel cs

def stripLabels (l : List Char) : List Char := stripLabelsFuel l.length l

/-- Character class of the mention regex at line 42: word characters (ASCII
letters, digits, underscore), dot and hyphen. -/
def isWordDotDash (c : Char) : Bool :=
  if ('a' ≤ c ∧ c ≤ 'z') ∨ ('A' ≤ c ∧ c ≤ 'Z') ∨ ('0' ≤ c ∧ c ≤ '9') then true
  else c == '_' || c == '.' || c == '-'

/-- Global replace of the mention regex by the empty string: at an at-sign
followed by at least one class character, drop the at-sign together with the
maximal (greedy) run of class characters and continue after it; otherwise keep
the current character. Fuel as in stripLabelsFuel. -/
def stripMentionsFuel : Nat → List Char → List Char
  | 0, _ => []
  | _ + 1, [] => []
  | fuel + 1, c :: cs =>
    if c == '@' && !(cs.takeWhile isWordDotDash).isEmpty then
      stripMentionsFuel fuel (cs.dropWhile isWordDotDash)
    else
      c :: stripMentionsFuel fuel cs

def stripMentions (l : List Char) : List Char := stripMentionsFuel l.length l

/-- The whitespace class of JS String.prototype.trim (WhiteSpace and
LineTerminator code points). -/
def isJsWhitespace (c : Char) : Bool :=
  c == ' ' || c == '\t' || c == '\n' || c == '\r' ||
  c.toNat == 0x0b || c.toNat == 0x0c || c.toNat == 0xa0 || c.toNat == 0x1680 ||
  (decide (0x2000 ≤ c.toNat) && decide (c.toNat ≤ 0x200a)) ||
  c.toNat == 0x2028 || c.toNat == 0x2029 ||
  c.toNat == 0x202f || c.toNat == 0x205f || c.toNat == 0x3000 || c.toNat == 0xfeff

/-- Remove trailing JS whitespace. -/
def trimRight : List Char → List Char
  | [] => []
  | c :: cs =>
    match trimRight cs with
    | [] => if isJsWhitespace c then [] else [c]
    | r => c :: r

/-- JS String.prototype.trim: drop leading and trailing whitespace. -/
def jsTrim (l : List Char) : List Char :=
  trimRight (l.dropWhile isJsWhitespace)

/-- cleanUserMessage from lines 36-44: remove the role-marker labels, then the
at-mentions, then trim. -/
def cleanUserMessage (msg : String) : String :=
  String.mk (jsTrim (stripMentions (stripLabels msg.data)))

/-! ## Prompt assembler (buildMessagesForTogether, lines 52-80) -/

/-- The verbatim system prompt of lines 53-67. -/
def systemPrompt : String :=
  "Eres ShareUnixIA, un asistente virtual bancario profesional. IMPORTANTE:\n- Pregunta siempre al comenzar el nombre del usuario y no eres un inicio de sesión.\n-IMPORTANTE: Solo responde a preguntas relacionadas con el banco si te pregunta algo no relaciona a un banco no lo respondas ignoralo.\n- No saludes ni digas frases como \"Estoy listo para ayudarte\".\n- Responde solo lo que se pide, sin saludos ni despedidas.\n- No uses etiquetas ni formatos como <think>, HTML o Markdown.\n- No repitas respuestas ni uses bloques de código.\n- Responde en texto plano, en español neutro, sin palabras extranjeras.\n- Máximo 2 oraciones claras y concisas.\n- No des explicaciones ni contexto extra.\n- Corrige errores ortográficos sin mencionarlo.\n- No asumas información no preguntada.\n- Si se piden instrucciones, usa hasta 5 pasos claros y breves.\n- Saluda solo en la primera interacción si es necesario, pero evita frases innecesarias.\n- No interpretes símbolos especiales como comandos."

/-- buildMessagesForTogether: system prompt first, then every history turn in
order, then the new message tagged as user. -/
def buildMessagesForTogether (history : List Turn) (newMessage : String) : List Turn :=
  [Turn.mk ("system") systemPrompt] ++ history ++ [Turn.mk ("user") newMessage]

/-! ## JSON / SSE payload construction -/

def hexDigits : List Char := ("0123456789abcdef").data

def hexDigit (n : Nat) : Char := hexDigits.getD n ('0')

def hex4 (n : Nat) : List Char :=
  [hexDigit (n / 4096 % 16), hexDigit (n / 256 % 16), hexDigit (n / 16 % 16), hexDigit (n % 16)]

/-- Escaping applied by JSON.stringify to one character of a string value. -/
def jsonEscapeChar (c : Char) : List Char :=
  if c = '"' then [('\\'), ('"')]
  else if c = '\\' then [('\\'), ('\\')]
  else if c.toNat = 8 then [('\\'), ('b')]
  else if c.toNat = 12 then [('\\'), ('f')]
  else if c = '\n' then [('\\'), ('n')]
  else if c = '\r' then [('\\'), ('r')]
  else if c = '\t' then [('\\'), ('t')]
  else if c.toNat < 32 then ('\\') :: ('u') :: hex4 c.toNat
  else [c]

/-- JSON.stringify of a string value: quoted and escaped. -/
def jsonQuote (s : String) : String :=
  String.mk (('"') :: ((s.data.map jsonEscapeChar).flatten ++ [('"')]))

/-- JSON.stringify of the one-field envelope with key response (line 130). -/
def jsonObjResponse (d : String) : String :=
  "\x7b\"response\":" ++ jsonQuote d ++ "\x7d"

/-- JSON.stringify of the one-field object with key error (line 147). -/
def jsonObjError (m : String) : String :=
  "\x7b\"error\":" ++ jsonQuote m ++ "\x7d"

/-- The SSE frame written for one delta at line 130. -/
def sseDataFrame (d : String) : String := "data: " ++ jsonObjResponse d ++ "\n\n"

/-- The sentinel frame written at line 135. -/
def doneFrame : String := "data: [DONE]\n\n"

/-- The in-band SSE error frame written at line 147. -/
def errorFrameStr (m : String) : String :=
  "event: error\ndata: " ++ jsonObjError m ++ "\n\n"

/-- The streaming headers of lines 110-114. -/
def sseHeaders : List (String × String) :=
  [(("Content-Type"), ("text/event-stream")),
   (("Cache-Control"), ("no-cache")),
   (("Connection"), ("keep-alive"))]

def errBusy : String :=
  "Ya se está procesando una respuesta para esta sesión. Por favor, espere."

def errNoMessage : String := "No se proporcionó ningún mensaje."

def errInternalDefault : String :=
  "Error interno del servidor al procesar la solicitud con Together AI."

def errStreamDefault : String := "Error desconocido en el stream."

def togetherModel : String := "meta-llama/Meta-Llama-3.1-8B-Instruct-Turbo"

/-- error.message with a fallback default, as in error.message at lines
144 and 147 combined with the JS or-operator: an empty message is falsy. -/
def errMsgOr (m dflt : String) : String := if m = "" then dflt else m

/-! ## Session store and lock set -/

/-- Property lookup on the chatMemory object. -/
def memLookup : List (String × List Turn) → String → Option (List Turn)
  | [], _ => none
  | (k, v) :: rest, sid => if k = sid then some v else memLookup rest sid

/-- Property assignment on the chatMemory object. -/
def memSet : List (String × List Turn) → String → List Turn → List (String × List Turn)
  | [], sid, v => [(sid, v)]
  | (k, w) :: rest, sid, v =>
    if k = sid then (sid, v) :: rest else (k, w) :: memSet rest sid v

/-- Lines 102-104: initialise chatMemory[currentSessionId] to an empty array
if the session has no entry yet. -/
def ensureSession (m : List (String × List Turn)) (sid : String) : List (String × List Turn) :=
  match memLookup m sid with
  | some _ => m
  | none => m ++ [(sid, [])]

/-- The history a session id denotes: the stored array, or empty for a session
that has no entry yet. -/
def histOf (m : List (String × List Turn)) (sid : String) : List Turn :=
  (memLookup m sid).getD []

/-! ## The request handler (app.post, lines 83-156) -/

/-- Line 85: sessionId or the default key; an empty string is falsy in JS and
also falls back to the default. -/
def currentSessionId : Option String → String
  | none => "default"
  | some s => if s = "" then "default" else s

/-- Line 95: the falsiness test applied to the message field. -/
def messageFalsy : Option String → Bool
  | none => true
  | some s => s = ""

/-- The guard of line 126 applied to one chunk: the first choice's delta
content, provided choices is nonempty, delta is present and content is a
nonempty (truthy) string. -/
def chunkDelta (chunk : Chunk) : Option String :=
  match chunk.choices with
  | [] => none
  | choice :: _ =>
    match choice.delta with
    | none => none
    | some d =>
      match d.content with
      | none => none
      | some s => if s = "" then none else some s

/-- The delta texts a chunk list makes the loop forward, in order. -/
def deltas (cs : List Chunk) : List String := cs.filterMap chunkDelta

/-- Concatenation of a list of strings as a character list. -/
def concatList : List String → List Char
  | [] => []
  | s :: rest => s.data ++ concatList rest

/-- The for-await loop of lines 125-132: accumulate each forwarded delta and
write its SSE frame, returning the final accumulator and the frames written
in order. -/
def relayLoop : List Chunk → List Char → List Char × List ResponseEvent
  | [], accumulatedContent => (accumulatedContent, [])
  | chunk :: rest, accumulatedContent =>
    match chunkDelta chunk with
    | some content =>
      let r := relayLoop rest (accumulatedContent ++ content.data)
      (r.1, ResponseEvent.write (sseDataFrame content) :: r.2)
    | none => relayLoop rest accumulatedContent

/-- The catch block of lines 141-149: a 500 JSON error if the headers have not
been sent, otherwise an in-band SSE error frame followed by res.end(). -/
def catchBlock (headersSent : Bool) (emsg : String) : List ResponseEvent :=
  if !headersSent then
    [ResponseEvent.jsonError 500 (errMsgOr emsg errInternalDefault)]
  else
    [ResponseEvent.write (errorFrameStr (errMsgOr emsg errStreamDefault)), ResponseEvent.endRes]

/-- The try/catch/finally body of lines 94-155, entered with the session id
already added to the lock set (the state argument holds the lock). The finally
block always removes the id from the lock set and calls res.end() only when
the response is not already ended (it is ended by res.json on the 400 path and
by the catch block on the mid-stream error path). -/
def processLocked (st : ServerState) (message : Option String) (sid : String)
    (up : UpstreamOutcome) : HandlerResult :=
  if messageFalsy message then
    { state := { chatMemory := st.chatMemory,
                 sessionsInProcess := st.sessionsInProcess.erase sid },
      events := [ResponseEvent.jsonError 400 errNoMessage],
      upstreamRequest := none }
  else
    let cleanedMessage := cleanUserMessage (message.getD (""))
    let mem := ensureSession st.chatMemory sid
    let sessionHistory := histOf mem sid
    let messagesForTogether := buildMessagesForTogether sessionHistory cleanedMessage
    let call := UpstreamCall.mk togetherModel messagesForTogether true
    match up with
    | UpstreamOutcome.createFail e =>
      { state := { chatMemory := mem,
                   sessionsInProcess := st.sessionsInProcess.erase sid },
        events := ResponseEvent.writeHead 200 sseHeaders :: catchBlock true e,
        upstreamRequest := some call }
    | UpstreamOutcome.streamFail cs e =>
      { state := { chatMemory := mem,
                   sessionsInProcess := st.sessionsInProcess.erase sid },
        events := ResponseEvent.writeHead 200 sseHeaders ::
          ((relayLoop cs []).2 ++ catchBlock true e),
        upstreamRequest := some call }
    | UpstreamOutcome.ok cs =>
      let accumulatedContent := (relayLoop cs []).1
      let newHistory := sessionHistory ++
        [Turn.mk ("user") cleanedMessage,
         Turn.mk ("assistant") (String.mk (jsTrim accumulatedContent))]
      { state := { chatMemory := memSet mem sid newHistory,
                   sessionsInProcess := st.sessionsInProcess.erase sid },
        events := ResponseEvent.writeHead 200 sseHeaders ::
          ((relayLoop cs []).2 ++
           [ResponseEvent.write doneFrame, ResponseEvent.endRes]),
        upstreamRequest := some call }

/-- The whole handler: admission at lines 87-92 (reject with 429 while the
session id is in the lock set, without entering the try block, so the state is
untouched; otherwise add the id to the lock set) and then the locked body. -/
def handleRequest (st : ServerState) (req : Request) : HandlerResult :=
  let sid := currentSessionId req.sessionId
  if st.sessionsInProcess.contains sid then
    { state := st, events := [ResponseEvent.jsonError 429 errBusy], upstreamRequest := none }
  else
    processLocked { st with sessionsInProcess := sid :: st.sessionsInProcess }
      req.message sid req.upstream

/-- The state at process start: empty chatMemory, empty lock set. -/
def initialState : ServerState := { chatMemory := [], sessionsInProcess := [] }

/-- Serve a sequence of requests starting from a state. -/
def runRequests (st : ServerState) (reqs : List Request) : ServerState :=
  reqs.foldl (fun s r => (handleRequest s r).state) st

/-! ## History well-formedness -/

/-- History alternates strictly in user-then-assistant pairs. -/
def wfHistory : List Turn → Bool
  | [] => true
  | [_] => false
  | u :: a :: rest => u.role == "user" && a.role == "assistant" && wfHistory rest

/-! ## Predicates on response events used in the claims -/

def isJsonErrorWithStatus (n : Nat) : ResponseEvent → Bool
  | ResponseEvent.jsonError s _ => s == n
  | _ => false

/-- Does an event start an event-stream response. -/
def isEventStreamHead : ResponseEvent → Bool
  | ResponseEvent.writeHead _ hs => hs.contains (("Content-Type"), ("text/event-stream"))
  | _ => false

/-- A residual occurrence check: no role-marker label matches at any position
of the text. stripLabels is the identity exactly on such texts. -/
def labelFree : List Char → Bool
  | [] => true
  | c :: cs => (matchAnyLabel (c :: cs)).isNone && labelFree cs

/-! ## Concrete inputs used by witnesses and counterexamples -/

/-- The three-chunk stream of the end-to-end example in the spec. -/
def exChunk (s : String) : Chunk := Chunk.mk [Choice.mk (some (Delta.mk (some s)))]

def exChunks : List Chunk := [exChunk ("El"), exChunk (" saldo"), exChunk (" es cero.")]

def exState1 : ServerState := { chatMemory := [], sessionsInProcess := ["s1"] }

/-! ## Helper lemmas: session store -/

theorem memLookup_append (m : List (String × List Turn)) (sid s : String) (v : List Turn) :
    memLookup (m ++ [(sid, v)]) s =
      match memLookup m s with
      | some w => some w
      | none => if sid = s then some v else none := by
  induction m with
  | nil => simp [memLookup]
  | cons kv rest ih =>
    obtain ⟨k, w⟩ := kv
    by_cases hk : k = s
    · simp [memLookup, hk]
    · simp [memLookup, hk, ih]

theorem histOf_ensureSession (m : List (String × List Turn)) (sid s : String) :
    histOf (ensureSession m sid) s = histOf m s := by
  unfold ensureSession
  cases h : memLookup m sid with
  | some w => rfl
  | none =>
    unfold histOf
    rw [memLookup_append]
    cases h2 : memLookup m s with
    | some w => rfl
    | none =>
      by_cases hs : sid = s
      · simp [hs]
      · simp [hs]

theorem memLookup_memSet_self (m : List (String × List Turn)) (sid : String) (v : List Turn) :
    memLookup (memSet m sid v) sid = some v := by
  induction m with
  | nil => simp [memSet, memLookup]
  | cons kv rest ih =>
    obtain ⟨k, w⟩ := kv
    by_cases hk : k = sid
    · simp [memSet, hk, memLookup]
    · simp [memSet, hk, memLookup, ih]

theorem memLookup_memSet_ne (m : List (String × List Turn)) (sid s : String) (v : List Turn)
    (h : s ≠ sid) : memLookup (memSet m sid v) s = memLookup m s := by
  have hns : ¬ sid = s := fun hh => h hh.symm
  induction m with
  | nil => simp [memSet, memLookup, hns]
  | cons kv rest ih =>
    obtain ⟨k, w⟩ := kv
    by_cases hk : k = sid
    · subst hk
      simp [memSet, memLookup, hns]
    · simp [memSet, hk, memLookup, ih]

theorem histOf_memSet_self (m : List (String × List Turn)) (sid : String) (v : List Turn) :
    histOf (memSet m sid v) sid = v := by
  unfold histOf
  rw [memLookup_memSet_self]
  rfl

theorem histOf_memSet_ne (m : List (String × List Turn)) (sid s : String) (v : List Turn)
    (h : s ≠ sid) : histOf (memSet m sid v) s = histOf m s := by
  unfold histOf
  rw [memLookup_memSet_ne m sid s v h]

/-! ## Helper lemmas: relay loop -/

theorem relayLoop_snd (cs : List Chunk) (acc : List Char) :
    (relayLoop cs acc).2 = (deltas cs).map (fun d => ResponseEvent.write (sseDataFrame d)) := by
  induction cs generalizing acc with
  | nil => simp [relayLoop, deltas]
  | cons c rest ih =>
    cases h : chunkDelta c with
    | some d => simp [relayLoop, h, deltas, List.filterMap_cons, ih]
    | none => simpa [relayLoop, h, deltas, List.filterMap_cons] using ih acc

theorem relayLoop_fst (cs : List Chunk) (acc : List Char) :
    (relayLoop cs acc).1 = acc ++ concatList (deltas cs) := by
  induction cs generalizing acc with
  | nil => simp [relayLoop, deltas, concatList]
  | cons c rest ih =>
    cases h : chunkDelta c with
    | some d =>
      simp [relayLoop, h, deltas, List.filterMap_cons, concatList, ih, List.append_assoc]
    | none => simpa [relayLoop, h, deltas, List.filterMap_cons] using ih acc

/-! ## Helper lemmas: history well-formedness -/

theorem twoStepInduction {α : Type} {P : List α → Prop} (h0 : P []) (h1 : ∀ a, P [a])
    (h2 : ∀ a b l, P l → P (a :: b :: l)) : ∀ l, P l
  | [] => h0
  | [a] => h1 a
  | a :: b :: l => h2 a b l (twoStepInduction h0 h1 h2 l)

theorem wfHistory_append_pair (c d : String) :
    ∀ h : List Turn, wfHistory h = true →
      wfHistory (h ++ [Turn.mk ("user") c, Turn.mk ("assistant") d]) = true := by
  refine twoStepInduction ?_ ?_ ?_
  · intro _
    simp [wfHistory]
  · intro a hw
    simp [wfHistory] at hw
  · intro a b l ih hw
    simp only [wfHistory, Bool.and_eq_true, beq_iff_eq] at hw
    simp only [List.cons_append, wfHistory, Bool.and_eq_true, beq_iff_eq]
    exact ⟨hw.1, ih hw.2⟩

theorem wfHistory_even :
    ∀ h : List Turn, wfHistory h = true → h.length % 2 = 0 := by
  refine twoStepInduction ?_ ?_ ?_
  · intro _
    simp
  · intro a hw
    simp [wfHistory] at hw
  · intro a b l ih hw
    simp only [wfHistory, Bool.and_eq_true, beq_iff_eq] at hw
    have := ih hw.2
    simp only [List.length_cons]
    omega

/-! ## Helper lemmas: sanitizer -/

theorem stripLabelsFuel_of_labelFree :
    ∀ (fuel : Nat) (l : List Char), l.length ≤ fuel → labelFree l = true →
      stripLabelsFuel fuel l = l := by
  intro fuel
  induction fuel with
  | zero =>
    intro l hl _
    have : l = [] := List.eq_nil_of_length_eq_zero (Nat.le_zero.mp hl)
    simp [this, stripLabelsFuel]
  | succ f ih =>
    intro l hl hf
    cases l with
    | nil => simp [stripLabelsFuel]
    | cons c cs =>
      simp only [labelFree, Bool.and_eq_true, Option.isNone_iff_eq_none] at hf
      simp only [stripLabelsFuel, hf.1]
      rw [ih cs (by simpa using Nat.le_of_succ_le_succ hl) hf.2]

theorem stripLabels_of_labelFree (l : List Char) (h : labelFree l = true) :
    stripLabels l = l :=
  stripLabelsFuel_of_labelFree l.length l le_rfl h

theorem stripMentionsFuel_of_no_at :
    ∀ (fuel : Nat) (l : List Char), l.length ≤ fuel → ('@') ∉ l →
      stripMentionsFuel fuel l = l := by
  intro fuel
  induction fuel with
  | zero =>
    intro l hl _
    have : l = [] := List.eq_nil_of_length_eq_zero (Nat.le_zero.mp hl)
    simp [this, stripMentionsFuel]
  | succ f ih =>
    intro l hl hf
    cases l with
    | nil => simp [stripMentionsFuel]
    | cons c cs =>
      have hc : (c == '@') = false := by
        simp only [List.mem_cons, not_or] at hf
        simp [beq_eq_false_iff_ne]
        exact fun hh => hf.1 hh.symm
      simp only [stripMentionsFuel, hc, Bool.false_and, Bool.false_eq_true, if_false]
      rw [ih cs (by simpa using Nat.le_of_succ_le_succ hl)
        (by simp only [List.mem_cons, not_or] at hf; exact hf.2)]

theorem stripMentions_of_no_at (l : List Char) (h : ('@') ∉ l) :
    stripMentions l = l :=
  stripMentionsFuel_of_no_at l.length l le_rfl h

theorem dropWhile_dropWhile (p : Char → Bool) (l : List Char) :
    List.dropWhile p (List.dropWhile p l) = List.dropWhile p l := by
  induction l with
  | nil => simp
  | cons c cs ih =>
    by_cases h : p c
    · simp [List.dropWhile_cons, h, ih]
    · simp [List.dropWhile_cons, h]

theorem trimRight_cons (c : Char) (cs : List Char) :
    trimRight (c :: cs) =
      match trimRight cs with
      | [] => if isJsWhitespace c then [] else [c]
      | r => c :: r := rfl

theorem trimRight_trimRight (l : List Char) : trimRight (trimRight l) = trimRight l := by
  induction l with
  | nil => simp [trimRight]
  | cons c cs ih =>
    cases h : trimRight cs with
    | nil =>
      by_cases hw : isJsWhitespace c
      · simp [trimRight, h, hw]
      · simp [trimRight, h, hw]
    | cons r rs =>
      have h2 := ih
      rw [h] at h2
      have h3 : trimRight (c :: cs) = c :: r :: rs := by
        rw [trimRight_cons, h]
      rw [h3, trimRight_cons, h2]

theorem length_dropWhile_le (p : Char → Bool) (l : List Char) :
    (List.dropWhile p l).length ≤ l.length := by
  induction l with
  | nil => simp
  | cons c cs ih =>
    by_cases h : p c
    · simp only [List.dropWhile_cons, h, if_true]
      exact Nat.le_succ_of_le ih
    · simp [List.dropWhile_cons, h]

theorem dropWhile_trimRight_of_self (l : List Char)
    (h : List.dropWhile isJsWhitespace l = l) :
    List.dropWhile isJsWhitespace (trimRight l) = trimRight l := by
  cases l with
  | nil => simp [trimRight]
  | cons c cs =>
    have hc : isJsWhitespace c = false := by
      by_contra hc'
      have hc2 : isJsWhitespace c = true := by
        cases hval : isJsWhitespace c
        · exact absurd hval hc'
        · rfl
      rw [List.dropWhile_cons, hc2, if_pos rfl] at h
      have := length_dropWhile_le isJsWhitespace cs
      rw [h] at this
      simp at this
    cases h2 : trimRight cs with
    | nil =>
      simp [trimRight, h2, hc, List.dropWhile_cons]
    | cons r rs =>
      simp [trimRight, h2, List.dropWhile_cons, hc]

theorem jsTrim_jsTrim (l : List Char) : jsTrim (jsTrim l) = jsTrim l := by
  unfold jsTrim
  rw [dropWhile_trimRight_of_self _ (dropWhile_dropWhile _ _), trimRight_trimRight]

/-! ## Helper lemmas: reachable histories are well-formed -/

def wfAll (st : ServerState) : Prop :=
  ∀ s, wfHistory (histOf st.chatMemory s) = true

/-- Every request changes chatMemory in one of three ways: not at all, by
initialising an empty history for one session, or by initialising and then
appending one user/assistant pair to that session's history. -/
theorem handleRequest_chatMemory (st : ServerState) (req : Request) :
    (handleRequest st req).state.chatMemory = st.chatMemory ∨
    (∃ sid, (handleRequest st req).state.chatMemory = ensureSession st.chatMemory sid) ∨
    (∃ sid c d, (handleRequest st req).state.chatMemory =
      memSet (ensureSession st.chatMemory sid) sid
        (histOf (ensureSession st.chatMemory sid) sid ++
          [Turn.mk ("user") c, Turn.mk ("assistant") d])) := by
  obtain ⟨msg, sidOpt, up⟩ := req
  by_cases h : currentSessionId sidOpt ∈ st.sessionsInProcess
  · left
    simp [handleRequest, h]
  · by_cases hf : messageFalsy msg
    · left
      simp [handleRequest, h, processLocked, hf]
    · cases up with
      | createFail e =>
        refine Or.inr (Or.inl ⟨currentSessionId sidOpt, ?_⟩)
        simp [handleRequest, h, processLocked, hf]
      | streamFail cs e =>
        refine Or.inr (Or.inl ⟨currentSessionId sidOpt, ?_⟩)
        simp [handleRequest, h, processLocked, hf]
      | ok cs =>
        refine Or.inr (Or.inr ⟨currentSessionId sidOpt,
          cleanUserMessage (msg.getD ("")),
          String.mk (jsTrim (relayLoop cs []).1), ?_⟩)
        simp [handleRequest, h, processLocked, hf]

theorem wfAll_handleRequest (st : ServerState) (req : Request) (h : wfAll st) :
    wfAll (handleRequest st req).state := by
  intro s
  rcases handleRequest_chatMemory st req with hm | ⟨sid, hm⟩ | ⟨sid, c, d, hm⟩
  · rw [hm]; exact h s
  · rw [hm, histOf_ensureSession]; exact h s
  · rw [hm]
    by_cases hs : s = sid
    · subst hs
      rw [histOf_memSet_self, histOf_ensureSession]
      exact wfHistory_append_pair c d _ (h s)
    · rw [histOf_memSet_ne _ _ _ _ hs, histOf_ensureSession]
      exact h s

theorem wfAll_runRequests (reqs : List Request) :
    ∀ st, wfAll st → wfAll (runRequests st reqs) := by
  induction reqs with
  | nil =>
    intro st h
    simpa [runRequests] using h
  | cons r rest ih =>
    intro st h
    have := ih ((handleRequest st r).state) (wfAll_handleRequest st r h)
    simpa [runRequests, List.foldl_cons] using this

/-! ## The claims -/

/-- Claim C1, counterexample. The claim says a failing upstream completion
call (a failure before any delta bytes have been streamed to the caller) is
answered with HTTP 500 and a JSON error body rather than an event-stream
response. On the code this is false: res.writeHead(200, event-stream headers)
at line 110 runs before together.chat.completions.create at line 116, so when
the create call throws, headersSent is already true and the catch block takes
the in-band SSE branch. At this concrete input the response contains no 500
JSON error and does start an event-stream. -/
theorem c1_counterexample :
    ((handleRequest initialState (Request.mk (some ("hola")) (some ("s1"))
        (UpstreamOutcome.createFail ("boom")))).events.any
      (isJsonErrorWithStatus 500) = false) ∧
    ((handleRequest initialState (Request.mk (some ("hola")) (some ("s1"))
        (UpstreamOutcome.createFail ("boom")))).events.any
      isEventStreamHead = true) := by
  exact ⟨by decide, by decide⟩

/-- Claim C1, amended: for every admitted request with a non-empty message
whose upstream completion call fails, the streaming headers (HTTP 200,
event-stream) have already been written when the failure is caught, so the
handler reports it as a single in-band SSE error frame followed by end of
response, and never as an HTTP 500 JSON body; the 500 JSON branch of the
catch block is reserved for errors thrown before the headers are written. -/
theorem c1_amended_upstream_failure (st : ServerState) (m : String)
    (sidOpt : Option String) (e : String)
    (h1 : st.sessionsInProcess.contains (currentSessionId sidOpt) = false)
    (h2 : messageFalsy (some m) = false) :
    (handleRequest st (Request.mk (some m) sidOpt (UpstreamOutcome.createFail e))).events =
      [ResponseEvent.writeHead 200 sseHeaders,
       ResponseEvent.write (errorFrameStr (errMsgOr e errStreamDefault)),
       ResponseEvent.endRes] ∧
    ((handleRequest st (Request.mk (some m) sidOpt (UpstreamOutcome.createFail e))).events.any
      (isJsonErrorWithStatus 500) = false) ∧
    catchBlock false e = [ResponseEvent.jsonError 500 (errMsgOr e errInternalDefault)] := by
  have h' : currentSessionId sidOpt ∉ st.sessionsInProcess := by simpa using h1
  have hmain : (handleRequest st (Request.mk (some m) sidOpt
      (UpstreamOutcome.createFail e))).events =
      [ResponseEvent.writeHead 200 sseHeaders,
       ResponseEvent.write (errorFrameStr (errMsgOr e errStreamDefault)),
       ResponseEvent.endRes] := by
    simp [handleRequest, h', processLocked, h2, catchBlock]
  refine ⟨hmain, ?_, rfl⟩
  rw [hmain]
  simp [isJsonErrorWithStatus]

/-- Claim C1 amended, witness at a concrete input. -/
theorem c1_amended_upstream_failure_witness :
    initialState.sessionsInProcess.contains (currentSessionId (some ("s1"))) = false ∧
    messageFalsy (some ("hola")) = false ∧
    ((handleRequest initialState (Request.mk (some ("hola")) (some ("s1"))
        (UpstreamOutcome.createFail ("boom")))).events =
      [ResponseEvent.writeHead 200 sseHeaders,
       ResponseEvent.write (errorFrameStr (errMsgOr ("boom") errStreamDefault)),
       ResponseEvent.endRes] ∧
     ((handleRequest initialState (Request.mk (some ("hola")) (some ("s1"))
        (UpstreamOutcome.createFail ("boom")))).events.any
       (isJsonErrorWithStatus 500) = false) ∧
     catchBlock false ("boom") =
       [ResponseEvent.jsonError 500 (errMsgOr ("boom") errInternalDefault)]) :=
  ⟨by decide, by decide,
   c1_amended_upstream_failure initialState ("hola") (some ("s1")) ("boom")
     (by decide) (by decide)⟩

/-- Claim C2: a request whose session id is in the lock set is rejected with
exactly one 429 JSON error, the state (lock set and chat memory) untouched
and nothing written to a stream and no upstream call made; a request whose
session id is not in the lock set proceeds to the request body with the id
added to the lock set first. -/
theorem c2_session_lock_admission (st : ServerState) (msg sidOpt : Option String)
    (up : UpstreamOutcome) :
    (st.sessionsInProcess.contains (currentSessionId sidOpt) = true →
      handleRequest st (Request.mk msg sidOpt up) =
        HandlerResult.mk st [ResponseEvent.jsonError 429 errBusy] none) ∧
    (st.sessionsInProcess.contains (currentSessionId sidOpt) = false →
      handleRequest st (Request.mk msg sidOpt up) =
        processLocked (ServerState.mk st.chatMemory
          (currentSessionId sidOpt :: st.sessionsInProcess)) msg
          (currentSessionId sidOpt) up ∧
      (currentSessionId sidOpt :: st.sessionsInProcess).contains
        (currentSessionId sidOpt) = true) := by
  constructor
  · intro h
    have h' : currentSessionId sidOpt ∈ st.sessionsInProcess := by simpa using h
    simp [handleRequest, h']
  · intro h
    have h' : currentSessionId sidOpt ∉ st.sessionsInProcess := by simpa using h
    exact ⟨by simp [handleRequest, h'], by simp⟩

/-- Claim C2, witness: a locked session is rejected untouched. -/
theorem c2_session_lock_admission_witness :
    exState1.sessionsInProcess.contains (currentSessionId (some ("s1"))) = true ∧
    handleRequest exState1 (Request.mk (some ("hola")) (some ("s1"))
        (UpstreamOutcome.ok exChunks)) =
      HandlerResult.mk exState1 [ResponseEvent.jsonError 429 errBusy] none :=
  ⟨by decide,
   (c2_session_lock_admission exState1 (some ("hola")) (some ("s1"))
     (UpstreamOutcome.ok exChunks)).1 (by decide)⟩

/-- Claim C3: a request whose upstream stream throws mid-iteration (after any
number of received deltas) leaves every session's history exactly as it was:
the partial assistant reply and the user turn are never committed, because the
history pushes at lines 138-139 run only after the loop and the sentinel
write complete. -/
theorem c3_midstream_failure_history (st : ServerState) (msg sidOpt : Option String)
    (cs : List Chunk) (e : String) (s : String) :
    histOf (handleRequest st (Request.mk msg sidOpt
        (UpstreamOutcome.streamFail cs e))).state.chatMemory s =
      histOf st.chatMemory s := by
  by_cases h : currentSessionId sidOpt ∈ st.sessionsInProcess
  · simp [handleRequest, h]
  · by_cases hf : messageFalsy msg
    · simp [handleRequest, h, processLocked, hf]
    · simp [handleRequest, h, processLocked, hf, histOf_ensureSession]

/-- Claim C4: starting from the process's initial state, after any sequence
of requests (with any upstream outcomes) every session's history alternates
strictly user-then-assistant and has even length. -/
theorem c4_history_alternation (reqs : List Request) (sid : String) :
    wfHistory (histOf (runRequests initialState reqs).chatMemory sid) = true ∧
    (histOf (runRequests initialState reqs).chatMemory sid).length % 2 = 0 := by
  have h := wfAll_runRequests reqs initialState (fun _ => rfl) sid
  exact ⟨h, wfHistory_even _ h⟩

/-- Claim C5: an admitted request whose message field is absent or empty is
answered with exactly one 400 JSON error and nothing else — no streaming
header — and the whole state is unchanged, the lock having been released by
the finally block, so the session is not left busy. -/
theorem c5_missing_message_400 (st : ServerState) (msg sidOpt : Option String)
    (up : UpstreamOutcome)
    (h1 : st.sessionsInProcess.contains (currentSessionId sidOpt) = false)
    (h2 : messageFalsy msg = true) :
    handleRequest st (Request.mk msg sidOpt up) =
      HandlerResult.mk st [ResponseEvent.jsonError 400 errNoMessage] none ∧
    (handleRequest st (Request.mk msg sidOpt up)).state.sessionsInProcess.contains
      (currentSessionId sidOpt) = false := by
  have h' : currentSessionId sidOpt ∉ st.sessionsInProcess := by simpa using h1
  have hmain : handleRequest st (Request.mk msg sidOpt up) =
      HandlerResult.mk st [ResponseEvent.jsonError 400 errNoMessage] none := by
    simp [handleRequest, h', processLocked, h2, List.erase_cons_head]
  rw [hmain]
  exact ⟨rfl, h1⟩

/-- Claim C5, witness. -/
theorem c5_missing_message_400_witness :
    initialState.sessionsInProcess.contains (currentSessionId (some ("s1"))) = false ∧
    messageFalsy none = true ∧
    (handleRequest initialState (Request.mk none (some ("s1"))
        (UpstreamOutcome.ok exChunks)) =
      HandlerResult.mk initialState [ResponseEvent.jsonError 400 errNoMessage] none ∧
     (handleRequest initialState (Request.mk none (some ("s1"))
        (UpstreamOutcome.ok exChunks))).state.sessionsInProcess.contains
       (currentSessionId (some ("s1"))) = false) :=
  ⟨by decide, by decide,
   c5_missing_message_400 initialState none (some ("s1")) (UpstreamOutcome.ok exChunks)
     (by decide) (by decide)⟩

/-- Claim C6: on a successful request the response is exactly the streaming
header, then one data frame per chunk with non-empty assistant-delta text, in
receipt order, then the single sentinel frame data: [DONE], then end of
response. -/
theorem c6_sse_relay_order (st : ServerState) (m : String) (sidOpt : Option String)
    (cs : List Chunk)
    (h1 : st.sessionsInProcess.contains (currentSessionId sidOpt) = false)
    (h2 : messageFalsy (some m) = false) :
    (handleRequest st (Request.mk (some m) sidOpt (UpstreamOutcome.ok cs))).events =
      ResponseEvent.writeHead 200 sseHeaders ::
        ((deltas cs).map (fun d => ResponseEvent.write (sseDataFrame d)) ++
          [ResponseEvent.write doneFrame, ResponseEvent.endRes]) := by
  have h' : currentSessionId sidOpt ∉ st.sessionsInProcess := by simpa using h1
  simp [handleRequest, h', processLocked, h2, relayLoop_snd]

/-- Claim C6, witness at the end-to-end example of the spec. -/
theorem c6_sse_relay_order_witness :
    initialState.sessionsInProcess.contains (currentSessionId (some ("s1"))) = false ∧
    messageFalsy (some ("Cuál es el saldo")) = false ∧
    (handleRequest initialState (Request.mk (some ("Cuál es el saldo")) (some ("s1"))
        (UpstreamOutcome.ok exChunks))).events =
      ResponseEvent.writeHead 200 sseHeaders ::
        ((deltas exChunks).map (fun d => ResponseEvent.write (sseDataFrame d)) ++
          [ResponseEvent.write doneFrame, ResponseEvent.endRes]) :=
  ⟨by decide, by decide,
   c6_sse_relay_order initialState ("Cuál es el saldo") (some ("s1")) exChunks
     (by decide) (by decide)⟩

/-- Claim C7: the sanitizer behaves as the two spec examples say (it is a
total function on strings, so it cannot fail, and an empty result is valid). -/
theorem c7_sanitizer_examples :
    cleanUserMessage ("Usuario: hola @bob.smith") = ("hola") ∧
    cleanUserMessage ("  Respuesta: todo bien  ") = ("todo bien") := by
  exact ⟨by decide, by decide⟩

/-- Claim C8, counterexample: the sanitizer is not idempotent. JS global
replace does not rescan its own output, so removing the inner label occurrence
from this input splices together a fresh label occurrence, which only a second
application removes. -/
theorem c8_counterexample :
    cleanUserMessage (cleanUserMessage ("UsuUsuario:ario:")) ≠
      cleanUserMessage ("UsuUsuario:ario:") := by
  decide

/-- Claim C8, amended: the sanitizer is idempotent on every input whose
sanitized form contains no role-marker label occurrence and no at-sign (in
general the removals can splice together new removable occurrences, so full
idempotence fails). -/
theorem c8_idempotent_on_sanitized (s : String)
    (h1 : labelFree ((cleanUserMessage s).data) = true)
    (h2 : ('@') ∉ (cleanUserMessage s).data) :
    cleanUserMessage (cleanUserMessage s) = cleanUserMessage s := by
  unfold cleanUserMessage at h1 h2 ⊢
  rw [stripLabels_of_labelFree _ h1, stripMentions_of_no_at _ h2, jsTrim_jsTrim]

/-- Claim C8 amended, witness. -/
theorem c8_idempotent_on_sanitized_witness :
    labelFree ((cleanUserMessage ("Usuario: hola @bob.smith")).data) = true ∧
    ('@') ∉ (cleanUserMessage ("Usuario: hola @bob.smith")).data ∧
    cleanUserMessage (cleanUserMessage ("Usuario: hola @bob.smith")) =
      cleanUserMessage ("Usuario: hola @bob.smith") :=
  ⟨by decide, by decide,
   c8_idempotent_on_sanitized ("Usuario: hola @bob.smith") (by decide) (by decide)⟩

/-- Claim C9: on a successful request the committed user turn is the sanitized
message (not the raw input) and the committed assistant turn is the
whitespace-trimmed concatenation of exactly the deltas forwarded to the
caller, so the stored exchange can differ from the bytes sent and received. -/
theorem c9_committed_exchange (st : ServerState) (m : String) (sidOpt : Option String)
    (cs : List Chunk)
    (h1 : st.sessionsInProcess.contains (currentSessionId sidOpt) = false)
    (h2 : messageFalsy (some m) = false) :
    histOf (handleRequest st (Request.mk (some m) sidOpt
        (UpstreamOutcome.ok cs))).state.chatMemory (currentSessionId sidOpt) =
      histOf st.chatMemory (currentSessionId sidOpt) ++
        [Turn.mk ("user") (cleanUserMessage m),
         Turn.mk ("assistant") (String.mk (jsTrim (concatList (deltas cs))))] ∧
    (handleRequest st (Request.mk (some m) sidOpt (UpstreamOutcome.ok cs))).events =
      ResponseEvent.writeHead 200 sseHeaders ::
        ((deltas cs).map (fun d => ResponseEvent.write (sseDataFrame d)) ++
          [ResponseEvent.write doneFrame, ResponseEvent.endRes]) := by
  have h' : currentSessionId sidOpt ∉ st.sessionsInProcess := by simpa using h1
  constructor
  · simp [handleRequest, h', processLocked, h2, relayLoop_fst,
      histOf_memSet_self, histOf_ensureSession]
  · simp [handleRequest, h', processLocked, h2, relayLoop_snd]

/-- Claim C9, witness at the end-to-end example of the spec. -/
theorem c9_committed_exchange_witness :
    initialState.sessionsInProcess.contains (currentSessionId (some ("s1"))) = false ∧
    messageFalsy (some ("Cuál es el saldo")) = false ∧
    (histOf (handleRequest initialState (Request.mk (some ("Cuál es el saldo")) (some ("s1"))
        (UpstreamOutcome.ok exChunks))).state.chatMemory (currentSessionId (some ("s1"))) =
      histOf initialState.chatMemory (currentSessionId (some ("s1"))) ++
        [Turn.mk ("user") (cleanUserMessage ("Cuál es el saldo")),
         Turn.mk ("assistant") (String.mk (jsTrim (concatList (deltas exChunks))))] ∧
     (handleRequest initialState (Request.mk (some ("Cuál es el saldo")) (some ("s1"))
        (UpstreamOutcome.ok exChunks))).events =
      ResponseEvent.writeHead 200 sseHeaders ::
        ((deltas exChunks).map (fun d => ResponseEvent.write (sseDataFrame d)) ++
          [ResponseEvent.write doneFrame, ResponseEvent.endRes])) :=
  ⟨by decide, by decide,
   c9_committed_exchange initialState ("Cuál es el saldo") (some ("s1")) exChunks
     (by decide) (by decide)⟩

/-- Claim C10: the 400 validation applies only to the raw message field. An
admitted request whose message is non-empty but sanitizes to the empty string
is not rejected: the streaming response begins, the upstream call carries a
user message with empty content as its final element, and on success an
empty-content user turn is committed to history. -/
theorem c10_raw_validation_only (st : ServerState) (m : String) (sidOpt : Option String)
    (cs : List Chunk)
    (h1 : st.sessionsInProcess.contains (currentSessionId sidOpt) = false)
    (h2 : messageFalsy (some m) = false)
    (h3 : cleanUserMessage m = ("")) :
    ((handleRequest st (Request.mk (some m) sidOpt (UpstreamOutcome.ok cs))).events.any
      (isJsonErrorWithStatus 400) = false) ∧
    ((handleRequest st (Request.mk (some m) sidOpt (UpstreamOutcome.ok cs))).events.head? =
      some (ResponseEvent.writeHead 200 sseHeaders)) ∧
    ((handleRequest st (Request.mk (some m) sidOpt (UpstreamOutcome.ok cs))).upstreamRequest =
      some (UpstreamCall.mk togetherModel
        (buildMessagesForTogether (histOf st.chatMemory (currentSessionId sidOpt)) (""))
        true)) ∧
    ((buildMessagesForTogether (histOf st.chatMemory (currentSessionId sidOpt)) ("")).getLast? =
      some (Turn.mk ("user") (""))) ∧
    (histOf (handleRequest st (Request.mk (some m) sidOpt
        (UpstreamOutcome.ok cs))).state.chatMemory (currentSessionId sidOpt) =
      histOf st.chatMemory (currentSessionId sidOpt) ++
        [Turn.mk ("user") (""),
         Turn.mk ("assistant") (String.mk (jsTrim (concatList (deltas cs))))]) := by
  have h' : currentSessionId sidOpt ∉ st.sessionsInProcess := by simpa using h1
  refine ⟨?_, ?_, ?_, ?_, ?_⟩
  · have hev : (handleRequest st (Request.mk (some m) sidOpt
        (UpstreamOutcome.ok cs))).events =
        ResponseEvent.writeHead 200 sseHeaders ::
          ((deltas cs).map (fun d => ResponseEvent.write (sseDataFrame d)) ++
            [ResponseEvent.write doneFrame, ResponseEvent.endRes]) := by
      simp [handleRequest, h', processLocked, h2, relayLoop_snd]
    rw [hev]
    simp [isJsonErrorWithStatus]
  · simp [handleRequest, h', processLocked, h2]
  · simp [handleRequest, h', processLocked, h2, h3, histOf_ensureSession]
  · rw [buildMessagesForTogether, List.getLast?_concat]
  · simp [handleRequest, h', processLocked, h2, h3, relayLoop_fst,
      histOf_memSet_self, histOf_ensureSession]

/-- Claim C10, witness: the message consisting of one mention sanitizes to the
empty string and is accepted. -/
theorem c10_raw_validation_only_witness :
    initialState.sessionsInProcess.contains (currentSessionId (some ("s1"))) = false ∧
    messageFalsy (some ("@bob")) = false ∧
    cleanUserMessage ("@bob") = ("") ∧
    (((handleRequest initialState (Request.mk (some ("@bob")) (some ("s1"))
        (UpstreamOutcome.ok exChunks))).events.any
      (isJsonErrorWithStatus 400) = false) ∧
     ((handleRequest initialState (Request.mk (some ("@bob")) (some ("s1"))
        (UpstreamOutcome.ok exChunks))).events.head? =
      some (ResponseEvent.writeHead 200 sseHeaders)) ∧
     ((handleRequest initialState (Request.mk (some ("@bob")) (some ("s1"))
        (UpstreamOutcome.ok exChunks))).upstreamRequest =
      some (UpstreamCall.mk togetherModel
        (buildMessagesForTogether
          (histOf initialState.chatMemory (currentSessionId (some ("s1")))) (""))
        true)) ∧
     ((buildMessagesForTogether
        (histOf initialState.chatMemory (currentSessionId (some ("s1")))) ("")).getLast? =
      some (Turn.mk ("user") (""))) ∧
     (histOf (handleRequest initialState (Request.mk (some ("@bob")) (some ("s1"))
        (UpstreamOutcome.ok exChunks))).state.chatMemory (currentSessionId (some ("s1"))) =
      histOf initialState.chatMemory (currentSessionId (some ("s1"))) ++
        [Turn.mk ("user") (""),
         Turn.mk ("assistant") (String.mk (jsTrim (concatList (deltas exChunks))))])) :=
  ⟨by decide, by decide, by decide,
   c10_raw_validation_only initialState ("@bob") (some ("s1")) exChunks
     (by decide) (by decide) (by decide)⟩

end ShareUnix
